import Mathlib

/-!
Verification development for the DualSense (DS5) driver
(`scc/drivers/ds5drv.py`): a shallow embedding of the driver's input
decoding override, haptic feedback scheduler, output batching/flush,
lightbar configuration, evdev device correlation and the evdev touch and
gyro callbacks, together with theorems about their behaviour.

Python floating point is modelled by exact rationals (`ℚ`).  Every float
computation in this driver is of the form `smallInt / 2^k` or a product of
such a value with an integer of at most 24 bits, so every intermediate
IEEE-754 double is exact and the rational model agrees with the Python
semantics.  Python `int()` (truncation toward zero) is `pyInt`; a ctypes
`c_ubyte` cell stores values modulo 2^8 (`ubyte`).
-/

namespace DS5

/-- Python `int()` applied to an (exactly represented) float: truncation
toward zero. -/
def pyInt (q : ℚ) : ℤ := if 0 ≤ q then ⌊q⌋ else ⌈q⌉

/-- Storing a Python integer into a ctypes `c_ubyte` struct field wraps
modulo 2^8. -/
def ubyte (v : ℤ) : ℕ := (v % 256).toNat

/-- `b & ~m` on Python (unbounded) integers with `m ≥ 0`, as used by
`buttons &= ~SCButtons.CPADTOUCH`: clears in `b` every bit set in `m`. -/
def andNot (b m : ℕ) : ℕ := b ^^^ (b &&& m)

/-- Modelled from the spec: `STICK_PAD_MAX` from the repository's constants
module (not under `src/`), the top of the canonical symmetric pad
coordinate range. -/
def STICK_PAD_MAX : ℤ := 32767

/-- Modelled from the spec: `STICK_PAD_MIN` from the repository's constants
module (not under `src/`), the bottom of the canonical pad coordinate
range. -/
def STICK_PAD_MIN : ℤ := -32768

namespace SCButtons

/-- Modelled from the spec: `SCButtons.CPADTOUCH`, the pad-touch button
flag from the repository's constants module (not under `src/`); a fixed
single-bit mask (bit 2), distinct from `CPADPRESS`. -/
def CPADTOUCH : ℕ := 4

/-- Modelled from the spec: `SCButtons.CPADPRESS`, the pad-press button
flag from the repository's constants module (not under `src/`); a fixed
single-bit mask (bit 1), distinct from `CPADTOUCH`. -/
def CPADPRESS : ℕ := 2

end SCButtons

/-- Bit index of the `CPADTOUCH` mask. -/
def cpadTouchBit : ℕ := 2

/-- Bit index of the `CPADPRESS` mask. -/
def cpadPressBit : ℕ := 1

/-! ### Report decode adapter: `DS5Controller.input` -/

/-- The slice of the external HID decoder state relevant to the driver's
touch-bit override: the decoded button bitfield (remaining decoded fields
are untouched by `DS5Controller.input` and are irrelevant here). -/
structure HIDState where
  buttons : ℕ
  deriving Repr, DecidableEq

/-- The special override of `DS5Controller.input` for the CPAD touch
button: byte 33's high bit set means the cpad is *not* touched. -/
def cpadOverride (byte33 : ℕ) (st : HIDState) : HIDState :=
  if byte33 >>> 7 ≠ 0 then
    { st with buttons := andNot st.buttons SCButtons.CPADTOUCH }
  else
    { st with buttons := st.buttons ||| SCButtons.CPADTOUCH }

/-- `DS5Controller.input(endpoint, data)`.  The external decode primitive
(`_lib.decode`, out of scope per the spec) is modelled by its result:
`none` when it rejects the packet (the guard fails, nothing happens),
`some (old, st)` for the decoder's `(old_state, state)` pair after a
successful decode.  `mapper` tells whether a consumer is registered.
Returns the final decoder state together with the list of
`(previous, current)` pairs forwarded to the consumer. -/
def ds5Input (mapper : Bool) (decodeResult : Option (HIDState × HIDState))
    (data : List ℕ) : Option HIDState × List (HIDState × HIDState) :=
  match decodeResult with
  | none => (none, [])
  | some (old, st) =>
    if mapper then
      (some (cpadOverride (data.getD 33 0) st),
        [(old, cpadOverride (data.getD 33 0) st)])
    else
      (some st, [])

/-! ### Haptic feedback scheduler: `DS5Controller.feedback` -/

/-- `HapticPos` positions accepted by `feedback` (from the repository's
constants module, referenced by the source). -/
inductive HapticPos where
  | LEFT
  | RIGHT
  | BOTH
  deriving Repr, DecidableEq

/-- The two motor-intensity `c_ubyte` cells of the persistent
`_feedback_output` structure. -/
structure FeedbackOutput where
  motor_left : ℕ
  motor_right : ℕ
  deriving Repr, DecidableEq

/-- A task handed to `mapper.schedule`: its delay in seconds, plus the
`cancel()`/fired bookkeeping of the cooperative scheduler. -/
structure Task where
  id : ℕ
  delay : ℚ
  cancelled : Bool
  fired : Bool
  deriving Repr, DecidableEq

/-- The per-controller state touched by the feedback scheduler:
`_feedback_output`, `_feedback_cancel_task` and the cooperative
scheduler's task list (fresh ids from `nextId`). -/
structure Ds5State where
  fb : FeedbackOutput
  pendingClear : Option ℕ
  tasks : List Task
  nextId : ℕ
  deriving Repr, DecidableEq

/-- Controller state at construction: both motors zero, no pending
cancel task (`DS5Controller.__init__`). -/
def initState : Ds5State :=
  { fb := { motor_left := 0, motor_right := 0 },
    pendingClear := none, tasks := [], nextId := 0 }

/-- `duration = float(period) * count / 0x10000; duration = max(duration, 0.02)`. -/
def feedbackDuration (period count : ℕ) : ℚ :=
  max ((period : ℚ) * count / 65536) (1 / 50)

/-- The motor-intensity updates of `feedback`: `normalized_amp`,
`clamped_amp`, `half_amp` and the position dispatch. -/
def applyMotors (pos : HapticPos) (amplitude : ℕ) (fb : FeedbackOutput) :
    FeedbackOutput :=
  let normalized_amp : ℚ := (amplitude : ℚ) / 32768
  let clamped_amp : ℕ := ubyte (pyInt (normalized_amp * 255))
  let half_amp : ℕ := ubyte (pyInt (normalized_amp * 128))
  match pos with
  | .LEFT => { fb with motor_left := half_amp }
  | .RIGHT => { fb with motor_right := clamped_amp }
  | .BOTH => { motor_right := clamped_amp, motor_left := half_amp }

/-- `self._feedback_cancel_task.cancel()`: marks the pending task (if any)
cancelled. -/
def cancelPending (s : Ds5State) : Ds5State :=
  match s.pendingClear with
  | none => s
  | some i =>
    { s with tasks := s.tasks.map fun t =>
        if t.id = i then { t with cancelled := true } else t }

/-- `DS5Controller.feedback(data)`: updates the persistent motor output,
cancels any previously scheduled clear task, and schedules a fresh
`clear_feedback` task after `feedbackDuration period count` seconds.
(The `schedule_output('feedback', …)` enqueues are modelled separately
with `flush`.)  The new task is consed at the head of the task list. -/
def feedbackOp (pos : HapticPos) (amplitude period count : ℕ)
    (s : Ds5State) : Ds5State :=
  let s' := cancelPending { s with fb := applyMotors pos amplitude s.fb }
  { s' with
    tasks := { id := s.nextId, delay := feedbackDuration period count,
               cancelled := false, fired := false } :: s'.tasks,
    pendingClear := some s.nextId,
    nextId := s.nextId + 1 }

/-- A task is still able to fire: scheduled, not cancelled, not fired. -/
def Task.fireable (t : Task) : Bool := !t.cancelled && !t.fired

/-- The cooperative loop fires task `i`: a cancelled or already-fired task
is skipped; otherwise `clear_feedback` runs, zeroing both motors, and the
task is marked fired. -/
def fireTask (i : ℕ) (s : Ds5State) : Ds5State :=
  if s.tasks.any (fun t => t.id = i && t.fireable) then
    { s with
      fb := { motor_left := 0, motor_right := 0 },
      tasks := s.tasks.map fun t =>
        if t.id = i then { t with fired := true } else t }
  else s

/-- An event in the life of the feedback scheduler: a `feedback` call or
the loop firing a scheduled task. -/
inductive FbOp where
  | fb (pos : HapticPos) (amplitude period count : ℕ)
  | fire (i : ℕ)

/-- One scheduler event. -/
def fbStep (s : Ds5State) : FbOp → Ds5State
  | .fb pos a p c => feedbackOp pos a p c s
  | .fire i => fireTask i s

/-- A whole lifetime of scheduler events. -/
def fbRun (ops : List FbOp) (s : Ds5State) : Ds5State := ops.foldl fbStep s

/-- Number of pending (scheduled, unfired, uncancelled) clear tasks. -/
def pendingCount (s : Ds5State) : ℕ := (s.tasks.filter Task.fireable).length

/-! ### Output batching: `schedule_output` / `flush` -/

/-- `DualSenseHIDOutput`: the fixed 48-byte ctypes output structure.
Array fields are functions from their index type; every cell is a
`c_ubyte`.  Unset fields default to zero, as ctypes zero-initialises. -/
structure DualSenseHIDOutput where
  operating_mode : ℕ := 0
  physical_effect_control : ℕ := 0
  light_effect_control : ℕ := 0
  motor_right : ℕ := 0
  motor_left : ℕ := 0
  unknown2 : Fin 4 → ℕ := fun _ => 0
  mute_button_led : ℕ := 0
  power_save_control : ℕ := 0
  right_trigger_effect : Fin 11 → ℕ := fun _ => 0
  left_trigger_effect : Fin 11 → ℕ := fun _ => 0
  unknown3 : Fin 8 → ℕ := fun _ => 0
  lightbar_control : ℕ := 0
  lightbar_setup : ℕ := 0
  led_brightness : ℕ := 0
  player_leds : ℕ := 0
  lightbar_red : ℕ := 0
  lightbar_green : ℕ := 0
  lightbar_blue : ℕ := 0

/-- `bytearray(output)`: the struct's 48 bytes in declaration order. -/
def DualSenseHIDOutput.toBytes (o : DualSenseHIDOutput) : List ℕ :=
  [o.operating_mode % 256, o.physical_effect_control % 256,
   o.light_effect_control % 256, o.motor_right % 256, o.motor_left % 256]
  ++ List.ofFn (fun i => o.unknown2 i % 256)
  ++ [o.mute_button_led % 256, o.power_save_control % 256]
  ++ List.ofFn (fun i => o.right_trigger_effect i % 256)
  ++ List.ofFn (fun i => o.left_trigger_effect i % 256)
  ++ List.ofFn (fun i => o.unknown3 i % 256)
  ++ [o.lightbar_control % 256, o.lightbar_setup % 256,
      o.led_brightness % 256, o.player_leds % 256, o.lightbar_red % 256,
      o.lightbar_green % 256, o.lightbar_blue % 256]

/-- `bytearray(output).ljust(64, b'\x00')`: pad on the right with zero
bytes up to length `n` (a longer value is returned unchanged). -/
def ljust (n : ℕ) (l : List ℕ) : List ℕ := l ++ List.replicate (n - l.length) 0

/-- `self._outputs[output_id] = output` (`schedule_output`): Python dict
assignment on an insertion-ordered association list — an existing key
keeps its position and gets the new value, a new key is appended. -/
def dictAssign : List (String × DualSenseHIDOutput) → String →
    DualSenseHIDOutput → List (String × DualSenseHIDOutput)
  | [], k, v => [(k, v)]
  | (k₀, v₀) :: rest, k, v =>
    if k₀ = k then (k₀, v) :: rest else (k₀, v₀) :: dictAssign rest k v

/-- Dict lookup on the association list. -/
def dictFind? (m : List (String × DualSenseHIDOutput)) (k : String) :
    Option DualSenseHIDOutput :=
  (m.find? (fun p => p.1 = k)).map (fun p => p.2)

/-- The `_outputs` map after a sequence of `schedule_output` calls,
starting from the empty map of `__init__`. -/
def scheduleAll (calls : List (String × DualSenseHIDOutput)) :
    List (String × DualSenseHIDOutput) :=
  calls.foldl (fun m p => dictAssign m p.1 p.2) []

/-- `DS5Controller.flush`: drains `_outputs` with `popitem()` (LIFO) and
performs one 64-byte zero-padded `interruptWrite` per drained entry.
Returns the write list and the drained (empty) map. -/
def flushOutputs (m : List (String × DualSenseHIDOutput)) :
    List (String × List ℕ) × List (String × DualSenseHIDOutput) :=
  (m.reverse.map fun p => (p.1, ljust 64 p.2.toBytes), [])

/-- The value of the last `schedule_output` call for key `k` in `calls`. -/
def lastScheduled (calls : List (String × DualSenseHIDOutput)) (k : String) :
    Option DualSenseHIDOutput :=
  ((calls.filter fun p => p.1 = k).getLast?).map (fun p => p.2)

/-! ### Lightbar configuration: `DS5Controller.configure` -/

/-- `ICON_COLORS`: the fixed indexed lightbar palette. -/
def ICON_COLORS : List (ℚ × ℚ × ℚ) :=
  [(0, 1, 0), (0, 0, 1), (1, 0, 0), (1, 1, 0), (0, 1, 1), (1, 2/5, 0),
   (1, 0, 1)]

/-- `s.rsplit(sep, 1)` producing two pieces: split at the last occurrence
of `sep`; `none` when `sep` does not occur (Python then returns a
one-element list and two-target tuple unpacking raises `ValueError`). -/
def rsplitLast (sep : Char) : List Char → Option (List Char × List Char)
  | [] => none
  | c :: rest =>
    match rsplitLast sep rest with
    | some (a, b) => some (c :: a, b)
    | none => if c = sep then some ([], rest) else none

/-- `s.rsplit(sep, 1)[-1]`: the piece after the last occurrence of `sep`,
or the whole string when `sep` does not occur. -/
def lastPiece (sep : Char) (l : List Char) : List Char :=
  match rsplitLast sep l with
  | some (_, b) => b
  | none => l

/-- Digit run to a natural number. -/
def digitsToNat (ds : List Char) : ℕ :=
  ds.foldl (fun n c => n * 10 + (c.toNat - '0'.toNat)) 0

/-- Python `int(str)`: optional surrounding whitespace (modelled as space
characters), an optional sign, then a nonempty digit run; `none` models
the `ValueError` caught by `configure`. -/
def pyParseInt (l : List Char) : Option ℤ :=
  match ((l.dropWhile (· = ' ')).reverse.dropWhile (· = ' ')).reverse with
  | [] => none
  | c :: ds =>
    if c = '+' then
      if ds ≠ [] ∧ ds.all Char.isDigit then some (digitsToNat ds) else none
    else if c = '-' then
      if ds ≠ [] ∧ ds.all Char.isDigit then some (-(digitsToNat ds : ℤ))
      else none
    else if (c :: ds).all Char.isDigit then some (digitsToNat (c :: ds))
    else none

/-- Python list subscripting `ICON_COLORS[i]` with negative-index
semantics; `none` models an uncaught `IndexError`. -/
def pyPaletteGet (i : ℤ) : Option (ℚ × ℚ × ℚ) :=
  if 0 ≤ i then ICON_COLORS.get? i.toNat
  else if 0 ≤ i + ICON_COLORS.length then
    ICON_COLORS.get? (i + ICON_COLORS.length).toNat
  else none

/-- Colour selection of `DS5Controller.configure`: default blue; if an
icon reference is given (and truthy), split off the extension at the last
dot — `none` here models the uncaught `ValueError` of unpacking a dotless
name — then parse the piece after the last dash; a parsed index `< 7`
selects the palette entry, anything else keeps the default.  A `none`
result models an uncaught exception. -/
def configureColor (icon : Option (List Char)) : Option (ℚ × ℚ × ℚ) :=
  match icon with
  | none => some (0, 0, 1)
  | some s =>
    if s = [] then some (0, 0, 1)
    else
      match rsplitLast '.' s with
      | none => none
      | some (basename, _ext) =>
        match pyParseInt (lastPiece '-' basename) with
        | none => some (0, 0, 1)
        | some icon_idx =>
          if icon_idx < (ICON_COLORS.length : ℤ) then pyPaletteGet icon_idx
          else some (0, 0, 1)

/-- `DS5Controller.configure(icon, led_level)`: chosen colour channels
scaled by `led_level / 100`, truncated to bytes, enqueued as the
`lightbar` output structure.  `none` models an uncaught exception. -/
def configureOp (icon : Option (List Char)) (led_level : ℕ) :
    Option DualSenseHIDOutput :=
  (configureColor icon).map fun cols =>
    let led_level_norm : ℚ := (led_level : ℚ) / 100
    { operating_mode := 2, light_effect_control := 4,
      lightbar_red := ubyte (pyInt (cols.1 * led_level_norm * 255)),
      lightbar_green := ubyte (pyInt (cols.2.1 * led_level_norm * 255)),
      lightbar_blue := ubyte (pyInt (cols.2.2 * led_level_norm * 255)) }

/-! ### Evdev device correlation: `make_evdev_device` -/

/-- A candidate kernel input device as seen by `make_evdev_device`: its
physical address string and the list of absolute-axis codes reported by
`get_axes` (an external helper of the generic evdev driver). -/
structure EvDevice where
  phys : List Char
  axes : List ℕ
  deriving Repr, DecidableEq

/-! Linux input event codes used by the driver, from the external evdev
bindings (`EvdevController.ECODES`). -/

namespace ECODES

def EV_ABS : ℕ := 3
def ABS_X : ℕ := 0
def ABS_Y : ℕ := 1
def ABS_Z : ℕ := 2
def ABS_RX : ℕ := 3
def ABS_RY : ℕ := 4
def ABS_RZ : ℕ := 5
def ABS_MT_POSITION_X : ℕ := 53
def ABS_MT_POSITION_Y : ℕ := 54
def BTN_LEFT : ℕ := 272
def BTN_TOUCH : ℕ := 330

end ECODES

/-- `phys.split("/")[0]`: the physical-address prefix. -/
def physAddrPart (l : List Char) : List Char := l.takeWhile (· ≠ '/')

/-- First pass of `make_evdev_device`: the loop keeps the *last* device
with exactly 8 axes as the controller device. -/
def findController (devices : List EvDevice) : Option EvDevice :=
  devices.foldl (fun acc d => if d.axes.length = 8 then some d else acc) none

/-- Second pass of `make_evdev_device`: among devices whose `phys` starts
with `pfx`, a 6-axis device is the touchpad when it reports
`ABS_MT_POSITION_X` and the gyro otherwise; a 4-axis device is the
touchpad.  Returns `(gyro, touchpad)`, each last-match-wins. -/
def findGyroTouch (pfx : List Char) (devices : List EvDevice) :
    Option EvDevice × Option EvDevice :=
  devices.foldl
    (fun acc d =>
      if pfx.isPrefixOf d.phys then
        if d.axes.length = 6 then
          if ECODES.ABS_MT_POSITION_X ∈ d.axes then (acc.1, some d)
          else (some d, acc.2)
        else if d.axes.length = 4 then (acc.1, some d)
        else acc
      else acc)
    (none, none)

/-- `make_evdev_device(syspath)` over the enumerated device list: find the
controller device; then — exactly as in the source, where the prefix is
taken from the first loop's leaked `device` variable, i.e. from the *last*
enumerated device — correlate gyro and touchpad by that prefix, and build
the fused adapter only when all three roles are resolved
(`make_new_device` is external; its success is the returned triple). -/
def make_evdev_device (devices : List EvDevice) :
    Option (EvDevice × EvDevice × EvDevice) :=
  match findController devices with
  | none => none
  | some controllerdevice =>
    match devices.getLast? with
    | none => none
    | some lastDev =>
      let phys := physAddrPart lastDev.phys
      match findGyroTouch phys devices with
      | (some gyro, some touchpad) => some (controllerdevice, gyro, touchpad)
      | _ => none

/-- Modelled from the spec: the correlation rule as specified ("among
devices sharing the primary device's physical-address prefix"), i.e. the
same construction with the prefix taken from the controller device.  Used
to exhibit the divergence of the source from the spec. -/
def make_evdev_device_spec (devices : List EvDevice) :
    Option (EvDevice × EvDevice × EvDevice) :=
  match findController devices with
  | none => none
  | some controllerdevice =>
    let phys := physAddrPart controllerdevice.phys
    match findGyroTouch phys devices with
    | (some gyro, some touchpad) => some (controllerdevice, gyro, touchpad)
    | _ => none

/-! ### Event fusion adapter: touch and gyro callbacks -/

/-- The slice of the evdev adapter's persistent immutable state
(`self._state`, a namedtuple) touched by the touch and gyro callbacks. -/
structure EvState where
  buttons : ℕ
  cpad_x : ℤ
  cpad_y : ℤ
  gpitch : ℤ
  gyaw : ℤ
  groll : ℤ
  deriving Repr, DecidableEq

/-- A kernel input event as delivered by `device.read()`. -/
structure InputEvent where
  type : ℕ
  code : ℕ
  value : ℤ
  deriving Repr, DecidableEq

/-- `TOUCH_FACTOR_X = STICK_PAD_MAX / 940.0`. -/
def TOUCH_FACTOR_X : ℚ := (STICK_PAD_MAX : ℚ) / 940

/-- `TOUCH_FACTOR_Y = STICK_PAD_MAX / 470.0`. -/
def TOUCH_FACTOR_Y : ℚ := (STICK_PAD_MAX : ℚ) / 470

/-- One event of the `_touchpad_input` batch loop, threading the new
candidate state and whether any `_replace` has been applied (the loop
emits iff the candidate is a different object from `self._state`, and
`_replace` always allocates a fresh object). -/
def touchStep (acc : EvState × Bool) (e : InputEvent) : EvState × Bool :=
  let s := acc.1
  if e.type = ECODES.EV_ABS then
    if e.code = ECODES.ABS_MT_POSITION_X then
      ({ s with cpad_x := STICK_PAD_MIN + pyInt (e.value * TOUCH_FACTOR_X) },
       true)
    else if e.code = ECODES.ABS_MT_POSITION_Y then
      ({ s with cpad_y := STICK_PAD_MAX - pyInt (e.value * TOUCH_FACTOR_Y) },
       true)
    else acc
  else if e.type = 0 then acc
  else if e.code = ECODES.BTN_LEFT then
    if e.value = 1 then
      ({ s with buttons := s.buttons ||| SCButtons.CPADPRESS }, true)
    else
      ({ s with buttons := andNot s.buttons SCButtons.CPADPRESS }, true)
  else if e.code = ECODES.BTN_TOUCH then
    if e.value = 1 then
      ({ s with buttons := s.buttons ||| SCButtons.CPADTOUCH }, true)
    else
      ({ s with buttons := andNot s.buttons SCButtons.CPADTOUCH,
                cpad_x := 0, cpad_y := 0 }, true)
  else acc

/-- The whole readable batch of `_touchpad_input`. -/
def touchBatch (s : EvState) (events : List InputEvent) : EvState × Bool :=
  events.foldl touchStep (s, false)

/-- `DS5EvdevController._touchpad_input`: process the batch, then store
and emit `(old, new)` exactly once iff some event replaced the state. -/
def touchInput (s : EvState) (events : List InputEvent) :
    EvState × List (EvState × EvState) :=
  let r := touchBatch s events
  if r.2 then (r.1, [(s, r.1)]) else (s, [])

/-- The axis slots of `_state` addressed by `GYRO_MAP`. -/
inductive GyroAxis where
  | gpitch
  | gyaw
  | groll
  deriving Repr, DecidableEq

/-- `DS5EvdevController.GYRO_MAP`: per-code `(axis, factor)`; a `none`
axis is a reserved/placeholder entry; codes outside the map raise
`KeyError` (modelled as the outer `none`). -/
def GYRO_MAP (code : ℕ) : Option (Option GyroAxis × ℚ) :=
  if code = ECODES.ABS_RX then some (some .gpitch, 1/100)
  else if code = ECODES.ABS_RY then some (some .gyaw, 1/100)
  else if code = ECODES.ABS_RZ then some (some .groll, 1/100)
  else if code = ECODES.ABS_X then some (none, 1)
  else if code = ECODES.ABS_Y then some (none, 1)
  else if code = ECODES.ABS_Z then some (none, -1)
  else none

/-- Write `int(event.value * factor)` into the mapped axis slot. -/
def setGyroAxis (s : EvState) (a : GyroAxis) (v : ℤ) : EvState :=
  match a with
  | .gpitch => { s with gpitch := v }
  | .gyaw => { s with gyaw := v }
  | .groll => { s with groll := v }

/-- One event of the `_gyro_input` batch loop; `none` is the uncaught
`KeyError` for an `EV_ABS` code absent from `GYRO_MAP`. -/
def gyroStep (acc : EvState × Bool) (e : InputEvent) :
    Option (EvState × Bool) :=
  if e.type = ECODES.EV_ABS then
    match GYRO_MAP e.code with
    | none => none
    | some (axis, factor) =>
      match axis with
      | some a =>
        some (setGyroAxis acc.1 a (pyInt ((e.value : ℚ) * factor)), true)
      | none => some acc
  else some acc

/-- The whole readable batch of `_gyro_input`. -/
def gyroBatch (s : EvState) (events : List InputEvent) :
    Option (EvState × Bool) :=
  events.foldlM gyroStep (s, false)

/-- `DS5EvdevController._gyro_input`: process the batch, then store and
emit `(old, new)` exactly once iff some event replaced the state; an
exception leaves the persistent state unchanged and emits nothing. -/
def gyroInput (s : EvState) (events : List InputEvent) :
    EvState × List (EvState × EvState) :=
  match gyroBatch s events with
  | none => (s, [])
  | some (s', ch) => if ch then (s', [(s, s')]) else (s, [])

/-- The reserved/placeholder (axis-`none`) codes of `GYRO_MAP`, over the
whole absolute-axis code space (codes 0–63). -/
def gyroUnmappedCodes : List ℕ :=
  (List.range 64).filter fun c =>
    match GYRO_MAP c with
    | some (none, _) => true
    | _ => false

/-! ### Helper lemmas -/

theorem testBit_andNot (b m i : ℕ) :
    (andNot b m).testBit i = (b.testBit i && !(m.testBit i)) := by
  simp only [andNot, Nat.testBit_xor, Nat.testBit_and]
  cases b.testBit i <;> cases m.testBit i <;> rfl

theorem shiftRight7_ne_zero_iff {b : ℕ} (hb : b < 256) :
    b >>> 7 ≠ 0 ↔ b.testBit 7 = true := by
  rw [Nat.testBit_to_div_mod, Nat.shiftRight_eq_div_pow]
  have : b / 2 ^ 7 < 2 := Nat.div_lt_of_lt_mul (by omega)
  constructor
  · intro h
    simp only [decide_eq_true_eq]
    omega
  · intro h
    simp only [decide_eq_true_eq] at h
    omega

theorem or_mask_touch_testBit (b : ℕ) :
    (b ||| SCButtons.CPADTOUCH).testBit cpadTouchBit = true := by
  have h4 : Nat.testBit 4 2 = true := by decide
  simp [SCButtons.CPADTOUCH, cpadTouchBit, Nat.testBit_or, h4]

theorem andNot_mask_touch_testBit (b : ℕ) :
    (andNot b SCButtons.CPADTOUCH).testBit cpadTouchBit = false := by
  have h4 : Nat.testBit 4 2 = true := by decide
  rw [cpadTouchBit, SCButtons.CPADTOUCH, testBit_andNot, h4]
  simp

/-! ### C1: touch-bit override of `DS5Controller.input` -/

/-- C1: for every raw packet accepted by the external decode primitive
(64 bytes, byte-valued entries) and with a consumer registered, the
`CPADTOUCH` bit of the resulting state is the logical negation of bit 7
of byte 33 of the packet, and the `(previous, current)` state pair is
forwarded to the consumer exactly once. -/
theorem ds5Input_cpadtouch (old st : HIDState) (data : List ℕ)
    (hlen : data.length = 64) (hbytes : ∀ b ∈ data, b < 256) :
    (ds5Input true (some (old, st)) data).2.length = 1 ∧
    ∀ p ∈ (ds5Input true (some (old, st)) data).2,
      p.1 = old ∧
      p.2.buttons.testBit cpadTouchBit = !((data.getD 33 0).testBit 7) ∧
      (ds5Input true (some (old, st)) data).1 = some p.2 := by
  have h33 : 33 < data.length := by omega
  have hmem : data.getD 33 0 ∈ data := by
    have hg : data.getD 33 0 = data[33] := by
      rw [List.getD_eq_getElem?_getD, List.getElem?_eq_getElem h33,
        Option.getD_some]
    rw [hg]
    exact List.getElem_mem h33
  have hb : data.getD 33 0 < 256 := hbytes _ hmem
  have heq : ds5Input true (some (old, st)) data =
      (some (cpadOverride (data.getD 33 0) st),
        [(old, cpadOverride (data.getD 33 0) st)]) := rfl
  have hbit : (cpadOverride (data.getD 33 0) st).buttons.testBit cpadTouchBit
      = !((data.getD 33 0).testBit 7) := by
    by_cases hc : (data.getD 33 0) >>> 7 = 0
    · have ht : (data.getD 33 0).testBit 7 = false := by
        by_contra hne
        rw [Bool.not_eq_false] at hne
        exact (shiftRight7_ne_zero_iff hb).mpr hne hc
      rw [cpadOverride, if_neg (fun h => h hc), ht]
      rw [show ({ st with buttons := st.buttons ||| SCButtons.CPADTOUCH } :
          HIDState).buttons = st.buttons ||| SCButtons.CPADTOUCH from rfl]
      rw [or_mask_touch_testBit]
      rfl
    · have ht : (data.getD 33 0).testBit 7 = true :=
        (shiftRight7_ne_zero_iff hb).mp hc
      rw [cpadOverride, if_pos hc, ht]
      rw [show ({ st with buttons := andNot st.buttons SCButtons.CPADTOUCH } :
          HIDState).buttons = andNot st.buttons SCButtons.CPADTOUCH from rfl]
      rw [andNot_mask_touch_testBit]
      rfl
  rw [heq]
  refine ⟨rfl, fun p hp => ?_⟩
  rw [List.mem_singleton] at hp
  subst hp
  exact ⟨rfl, hbit, rfl⟩

/-- Witness for C1 at a concrete all-zero 64-byte packet: byte 33 has its
high bit clear, so the forwarded state has the `CPADTOUCH` bit set. -/
theorem ds5Input_cpadtouch_witness :
    ((List.replicate 64 0).length = 64 ∧ ∀ b ∈ List.replicate 64 (0 : ℕ), b < 256) ∧
    ((ds5Input true (some (⟨0⟩, ⟨0⟩)) (List.replicate 64 0)).2.length = 1 ∧
      ∀ p ∈ (ds5Input true (some ((⟨0⟩ : HIDState), (⟨0⟩ : HIDState)))
          (List.replicate 64 0)).2,
        p.1 = (⟨0⟩ : HIDState) ∧
        p.2.buttons.testBit cpadTouchBit =
          !(((List.replicate 64 (0 : ℕ)).getD 33 0).testBit 7) ∧
        (ds5Input true (some (⟨0⟩, ⟨0⟩)) (List.replicate 64 0)).1 = some p.2) :=
  ⟨⟨by decide, by decide⟩,
    ds5Input_cpadtouch ⟨0⟩ ⟨0⟩ (List.replicate 64 0) (by decide) (by decide)⟩

/-! ### C2, C4, C10: the haptic feedback scheduler -/

theorem cancelPending_fb (s : Ds5State) : (cancelPending s).fb = s.fb := by
  rcases hp : s.pendingClear with _ | i <;> simp [cancelPending, hp]

theorem feedbackOp_fb (pos : HapticPos) (a p c : ℕ) (s : Ds5State) :
    (feedbackOp pos a p c s).fb = applyMotors pos a s.fb := by
  show (cancelPending { s with fb := applyMotors pos a s.fb }).fb = _
  rw [cancelPending_fb]

/-- C2 (amended): `LEFT` sets only the left motor, to the truncated
half-scale value `int(amplitude / 0x8000 * 0x80)`; `RIGHT` sets only the
right motor, to the truncated full-scale value
`int(amplitude / 0x8000 * 0xff)`; `BOTH` sets both.  In particular
`feedback(LEFT, amplitude = 0x8000)` gives left motor `0x80` with the
right motor unchanged, and `feedback(BOTH, amplitude = 0x4000)` gives
right motor `0x7f` (not `0x80`: `int(0.5 * 0xff) = 127`) and left motor
`0x40`. -/
theorem feedback_motor_values (a p c : ℕ) (s : Ds5State) :
    ((feedbackOp .LEFT a p c s).fb.motor_right = s.fb.motor_right) ∧
    ((feedbackOp .LEFT a p c s).fb.motor_left =
      ubyte (pyInt ((a : ℚ) / 32768 * 128))) ∧
    ((feedbackOp .RIGHT a p c s).fb.motor_left = s.fb.motor_left) ∧
    ((feedbackOp .RIGHT a p c s).fb.motor_right =
      ubyte (pyInt ((a : ℚ) / 32768 * 255))) ∧
    ((feedbackOp .BOTH a p c s).fb.motor_left =
      ubyte (pyInt ((a : ℚ) / 32768 * 128))) ∧
    ((feedbackOp .BOTH a p c s).fb.motor_right =
      ubyte (pyInt ((a : ℚ) / 32768 * 255))) ∧
    ((feedbackOp .LEFT 32768 p c s).fb.motor_left = 128) ∧
    ((feedbackOp .LEFT 32768 p c s).fb.motor_right = s.fb.motor_right) ∧
    ((feedbackOp .BOTH 16384 p c s).fb.motor_right = 127) ∧
    ((feedbackOp .BOTH 16384 p c s).fb.motor_left = 64) := by
  refine ⟨?_, ?_, ?_, ?_, ?_, ?_, ?_, ?_, ?_, ?_⟩ <;> rw [feedbackOp_fb]
  · rfl
  · rfl
  · rfl
  · rfl
  · rfl
  · rfl
  · norm_num [applyMotors, ubyte, pyInt]
    rfl
  · rfl
  · norm_num [applyMotors, ubyte, pyInt]
    rfl
  · norm_num [applyMotors, ubyte, pyInt]
    rfl

/-- Counterexample to C2 as stated: `feedback(BOTH, amplitude = 0x4000)`
gives right motor `0x7f`, not the claimed full-scale `0x80`. -/
theorem feedback_both_half_amplitude_counter :
    (feedbackOp .BOTH 16384 0 0 initState).fb.motor_right = 127 ∧
    (127 : ℕ) ≠ 128 := by
  constructor
  · rw [feedbackOp_fb]
    norm_num [applyMotors, ubyte, pyInt]
    rfl
  · decide

/-- C4: the delay of the clear task scheduled by every feedback command is
`max(0.02, period * count / 0x10000)` seconds; `period = 0` always gives
exactly the 20 ms floor. -/
theorem feedback_clear_delay (pos : HapticPos) (a p c : ℕ) (s : Ds5State) :
    (((feedbackOp pos a p c s).tasks.head?).map Task.delay =
      some (max (1 / 50) ((p : ℚ) * c / 65536))) ∧
    (p = 0 →
      ((feedbackOp pos a p c s).tasks.head?).map Task.delay = some (1 / 50)) := by
  constructor
  · show some (feedbackDuration p c) = _
    rw [feedbackDuration, max_comm]
  · intro hp
    subst hp
    show some (feedbackDuration 0 c) = _
    rw [feedbackDuration]
    norm_num

/-- Witness for C4 at `period = 0`: the scheduled delay is exactly 1/50 s. -/
theorem feedback_clear_delay_witness :
    ((0 : ℕ) = 0) ∧
    ((feedbackOp .LEFT 0 0 5 initState).tasks.head?).map Task.delay =
      some (1 / 50) :=
  ⟨rfl, (feedback_clear_delay .LEFT 0 0 5 initState).2 rfl⟩

/-- C10: the feedback output structure is persistent — a `LEFT` command
leaves the right motor at its previous value and a `RIGHT` command leaves
the left motor at its previous value; and whenever a scheduled clear task
fires (it is present and fireable), both motor intensities become zero,
whatever position scheduled it. -/
theorem feedback_output_persistence (a p c : ℕ) (s : Ds5State) (i : ℕ) :
    ((feedbackOp .LEFT a p c s).fb.motor_right = s.fb.motor_right) ∧
    ((feedbackOp .RIGHT a p c s).fb.motor_left = s.fb.motor_left) ∧
    ((s.tasks.any fun t => t.id = i && t.fireable) = true →
      (fireTask i s).fb = { motor_left := 0, motor_right := 0 }) := by
  refine ⟨by rw [feedbackOp_fb]; rfl, by rw [feedbackOp_fb]; rfl, fun h => ?_⟩
  rw [fireTask, if_pos h]

/-- Witness for C10: after one `LEFT` feedback command from the initial
state, its scheduled clear task is fireable, and firing it zeroes both
motors. -/
theorem feedback_output_persistence_witness :
    ((feedbackOp .LEFT 100 0 0 initState).tasks.any
        (fun t => t.id = 0 && t.fireable) = true) ∧
    (fireTask 0 (feedbackOp .LEFT 100 0 0 initState)).fb =
      { motor_left := 0, motor_right := 0 } :=
  ⟨by decide,
    (feedback_output_persistence 100 0 0
      (feedbackOp .LEFT 100 0 0 initState) 0).2.2 (by decide)⟩

/-! ### C3: at most one pending clear task -/

/-- Scheduler bookkeeping invariant: task ids are below the id counter and
pairwise distinct, and every fireable task is the one `_feedback_cancel_task`
points to. -/
def SchedInv (s : Ds5State) : Prop :=
  (∀ t ∈ s.tasks, t.id < s.nextId) ∧
  (∀ t ∈ s.tasks, t.fireable = true → s.pendingClear = some t.id) ∧
  s.tasks.Pairwise (fun a b => a.id ≠ b.id)

theorem schedInv_init : SchedInv initState := by
  refine ⟨?_, ?_, ?_⟩ <;> simp [initState]

theorem schedInv_feedback (pos : HapticPos) (a p c : ℕ) (s : Ds5State)
    (h : SchedInv s) : SchedInv (feedbackOp pos a p c s) := by
  obtain ⟨h1, h2, h3⟩ := h
  rcases hp : s.pendingClear with _ | i
  · have htasks : (feedbackOp pos a p c s).tasks =
        { id := s.nextId, delay := feedbackDuration p c,
          cancelled := false, fired := false } :: s.tasks := by
      simp [feedbackOp, cancelPending, hp]
    have hnext : (feedbackOp pos a p c s).nextId = s.nextId + 1 := by
      simp [feedbackOp, cancelPending, hp]
    have hpend : (feedbackOp pos a p c s).pendingClear = some s.nextId := by
      simp [feedbackOp, cancelPending, hp]
    refine ⟨?_, ?_, ?_⟩
    · intro t ht
      rw [htasks] at ht
      rw [hnext]
      rcases List.mem_cons.mp ht with rfl | ht'
      · exact Nat.lt_succ_self _
      · exact Nat.lt_succ_of_lt (h1 t ht')
    · intro t ht hf
      rw [htasks] at ht
      rw [hpend]
      rcases List.mem_cons.mp ht with rfl | ht'
      · rfl
      · exact absurd (h2 t ht' hf) (by rw [hp]; intro hx; cases hx)
    · rw [htasks]
      refine List.pairwise_cons.mpr ⟨?_, h3⟩
      intro t ht
      show s.nextId ≠ t.id
      have := h1 t ht
      omega
  · have htasks : (feedbackOp pos a p c s).tasks =
        { id := s.nextId, delay := feedbackDuration p c,
          cancelled := false, fired := false } ::
          s.tasks.map (fun t =>
            if t.id = i then { t with cancelled := true } else t) := by
      simp [feedbackOp, cancelPending, hp]
    have hnext : (feedbackOp pos a p c s).nextId = s.nextId + 1 := by
      simp [feedbackOp, cancelPending, hp]
    have hpend : (feedbackOp pos a p c s).pendingClear = some s.nextId := by
      simp [feedbackOp, cancelPending, hp]
    have hid : ∀ t : Task,
        (if t.id = i then { t with cancelled := true } else t).id = t.id := by
      intro t
      by_cases ht : t.id = i <;> simp [ht]
    refine ⟨?_, ?_, ?_⟩
    · intro t ht
      rw [htasks] at ht
      rw [hnext]
      rcases List.mem_cons.mp ht with rfl | ht'
      · exact Nat.lt_succ_self _
      · obtain ⟨u, hu, rfl⟩ := List.mem_map.mp ht'
        rw [hid]
        exact Nat.lt_succ_of_lt (h1 u hu)
    · intro t ht hf
      rw [htasks] at ht
      rw [hpend]
      rcases List.mem_cons.mp ht with rfl | ht'
      · rfl
      · obtain ⟨u, hu, rfl⟩ := List.mem_map.mp ht'
        by_cases hui : u.id = i
        · rw [if_pos hui] at hf
          simp [Task.fireable] at hf
        · rw [if_neg hui] at hf
          have huid := h2 u hu hf
          rw [hp] at huid
          exact absurd (Option.some.inj huid).symm hui
    · rw [htasks]
      refine List.pairwise_cons.mpr ⟨?_, ?_⟩
      · intro t ht
        obtain ⟨u, hu, rfl⟩ := List.mem_map.mp ht
        show s.nextId ≠ _
        rw [hid]
        have := h1 u hu
        omega
      · refine List.Pairwise.map _ ?_ h3
        intro a' b' hab
        rw [hid, hid]
        exact hab

theorem schedInv_fire (i : ℕ) (s : Ds5State) (h : SchedInv s) :
    SchedInv (fireTask i s) := by
  obtain ⟨h1, h2, h3⟩ := h
  rw [fireTask]
  by_cases hc : s.tasks.any (fun t => t.id = i && t.fireable) = true
  · rw [if_pos hc]
    have hid : ∀ t : Task,
        (if t.id = i then { t with fired := true } else t).id = t.id := by
      intro t
      by_cases ht : t.id = i <;> simp [ht]
    refine ⟨?_, ?_, ?_⟩
    · intro t ht
      obtain ⟨u, hu, rfl⟩ := List.mem_map.mp ht
      rw [hid]
      exact h1 u hu
    · intro t ht hf
      obtain ⟨u, hu, rfl⟩ := List.mem_map.mp ht
      show s.pendingClear = _
      by_cases hui : u.id = i
      · rw [if_pos hui] at hf
        simp [Task.fireable] at hf
      · rw [if_neg hui] at hf ⊢
        exact h2 u hu hf
    · refine List.Pairwise.map _ ?_ h3
      intro a' b' hab
      rw [hid, hid]
      exact hab
  · rw [if_neg hc]
    exact ⟨h1, h2, h3⟩

theorem schedInv_run (ops : List FbOp) (s : Ds5State) (h : SchedInv s) :
    SchedInv (fbRun ops s) := by
  induction ops generalizing s with
  | nil => exact h
  | cons op rest ih =>
    rcases op with ⟨pos, a, p, c⟩ | i
    · exact ih _ (schedInv_feedback pos a p c s h)
    · exact ih _ (schedInv_fire i s h)

theorem pendingCount_le_one_of_inv (s : Ds5State) (h : SchedInv s) :
    pendingCount s ≤ 1 := by
  obtain ⟨_h1, h2, h3⟩ := h
  rw [pendingCount]
  rcases hf : s.tasks.filter Task.fireable with _ | ⟨a, rest⟩
  · simp
  · rcases rest with _ | ⟨b, rest'⟩
    · simp
    · exfalso
      have hsub : (s.tasks.filter Task.fireable).Pairwise
          (fun a b => a.id ≠ b.id) :=
        List.Pairwise.sublist (List.filter_sublist _) h3
      rw [hf, List.pairwise_cons] at hsub
      have hne : a.id ≠ b.id := hsub.1 b (by simp)
      have ha : a ∈ s.tasks.filter Task.fireable := by
        rw [hf]; simp
      have hb : b ∈ s.tasks.filter Task.fireable := by
        rw [hf]; simp
      rw [List.mem_filter] at ha hb
      have hpa := h2 a ha.1 ha.2
      have hpb := h2 b hb.1 hb.2
      rw [hpa] at hpb
      exact hne (Option.some.inj hpb)

/-- C3: over every sequence of feedback commands and task firings from
construction, at most one pending (scheduled, unfired, uncancelled) clear
task exists; and after a second feedback command the only fireable clear
task is the second command's (its delay is the second command's computed
duration), firing the first command's task is a no-op, and firing the
second command's task clears the motors. -/
theorem feedback_single_pending_clear (ops : List FbOp)
    (pos1 pos2 : HapticPos) (a1 p1 c1 a2 p2 c2 : ℕ) :
    pendingCount (fbRun ops initState) ≤ 1 ∧
    ((feedbackOp pos2 a2 p2 c2 (feedbackOp pos1 a1 p1 c1
        initState)).tasks.filter Task.fireable).map Task.delay =
      [feedbackDuration p2 c2] ∧
    fireTask 0 (feedbackOp pos2 a2 p2 c2 (feedbackOp pos1 a1 p1 c1
        initState)) =
      feedbackOp pos2 a2 p2 c2 (feedbackOp pos1 a1 p1 c1 initState) ∧
    (fireTask 1 (feedbackOp pos2 a2 p2 c2 (feedbackOp pos1 a1 p1 c1
        initState))).fb = { motor_left := 0, motor_right := 0 } := by
  refine ⟨pendingCount_le_one_of_inv _ (schedInv_run ops initState schedInv_init),
    ?_, ?_, ?_⟩
  · rfl
  · rfl
  · rfl

/-! ### C8: touch release resets the pad coordinate -/

/-- C8 (amended): processing a contact-release event (`BTN_TOUCH`,
value 0) leaves the pad-touch bit cleared and both touch coordinates at
the origin, whatever the prior state; hence every batch *ending* with a
contact release yields such a state.  (Events after the release in the
same batch can modify the coordinates and the bit again.) -/
theorem touch_release_resets (s : EvState) (events : List InputEvent) :
    (touchBatch s (events ++ [⟨1, ECODES.BTN_TOUCH, 0⟩])).1.buttons.testBit
        cpadTouchBit = false ∧
    (touchBatch s (events ++ [⟨1, ECODES.BTN_TOUCH, 0⟩])).1.cpad_x = 0 ∧
    (touchBatch s (events ++ [⟨1, ECODES.BTN_TOUCH, 0⟩])).1.cpad_y = 0 := by
  rw [touchBatch, List.foldl_append]
  generalize List.foldl touchStep (s, false) events = acc
  simp only [List.foldl_cons, List.foldl_nil]
  rcases acc with ⟨a, ch⟩
  have hstep : touchStep (a, ch) ⟨1, ECODES.BTN_TOUCH, 0⟩ =
      ({ a with
          buttons := andNot a.buttons SCButtons.CPADTOUCH,
          cpad_x := 0, cpad_y := 0 }, true) := rfl
  rw [hstep]
  exact ⟨andNot_mask_touch_testBit _, rfl, rfl⟩

/-- Counterexample to C8 as stated: a batch that *contains* a
contact-release event but re-presses afterwards does not end with the
pad-touch bit cleared. -/
theorem touch_release_claim_counter :
    ¬ ((touchBatch ⟨0, 0, 0, 0, 0, 0⟩
          [⟨1, ECODES.BTN_TOUCH, 0⟩, ⟨1, ECODES.BTN_TOUCH, 1⟩]).1.buttons.testBit
            cpadTouchBit = false ∧
        (touchBatch ⟨0, 0, 0, 0, 0, 0⟩
          [⟨1, ECODES.BTN_TOUCH, 0⟩, ⟨1, ECODES.BTN_TOUCH, 1⟩]).1.cpad_x = 0 ∧
        (touchBatch ⟨0, 0, 0, 0, 0, 0⟩
          [⟨1, ECODES.BTN_TOUCH, 0⟩, ⟨1, ECODES.BTN_TOUCH, 1⟩]).1.cpad_y = 0) := by
  intro h
  have hb : (touchBatch ⟨0, 0, 0, 0, 0, 0⟩
      [⟨1, ECODES.BTN_TOUCH, 0⟩, ⟨1, ECODES.BTN_TOUCH, 1⟩]).1.buttons.testBit
        cpadTouchBit = true := by decide
  rw [hb] at h
  exact Bool.noConfusion h.1

/-! ### C9: gyro axis mapping -/

theorem gyroStep_inert (acc : EvState × Bool) (e : InputEvent)
    (ht : e.type = ECODES.EV_ABS)
    (hc : e.code = ECODES.ABS_X ∨ e.code = ECODES.ABS_Y ∨
      e.code = ECODES.ABS_Z) :
    gyroStep acc e = some acc := by
  rcases hc with hc | hc | hc <;> rw [gyroStep, ht, hc] <;> rfl

theorem gyroBatch_inert (events : List InputEvent) (acc : EvState × Bool)
    (h : ∀ e ∈ events, e.type = ECODES.EV_ABS ∧
      (e.code = ECODES.ABS_X ∨ e.code = ECODES.ABS_Y ∨
        e.code = ECODES.ABS_Z)) :
    events.foldlM gyroStep acc = some acc := by
  induction events generalizing acc with
  | nil => rfl
  | cons e rest ih =>
    have he := h e (List.mem_cons_self _ _)
    rw [List.foldlM_cons, gyroStep_inert acc e he.1 he.2]
    exact ih acc (fun e' he' => h e' (List.mem_cons_of_mem _ he'))

/-- C9 (amended): every mapped orientation axis code (`ABS_RX`, `ABS_RY`,
`ABS_RZ`) updates its state slot to the event value times the fixed scale
factor 0.01; exactly *three* axis codes (`ABS_X`, `ABS_Y`, `ABS_Z`) are
unmapped placeholders, and a batch consisting only of events with those
codes leaves the persistent state identical and emits nothing. -/
theorem gyro_mapped_and_unmapped (s : EvState) (ch : Bool) (v : ℤ)
    (events : List InputEvent)
    (h : ∀ e ∈ events, e.type = ECODES.EV_ABS ∧
      (e.code = ECODES.ABS_X ∨ e.code = ECODES.ABS_Y ∨
        e.code = ECODES.ABS_Z)) :
    gyroStep (s, ch) ⟨ECODES.EV_ABS, ECODES.ABS_RX, v⟩ =
      some ({ s with gpitch := pyInt ((v : ℚ) * (1 / 100)) }, true) ∧
    gyroStep (s, ch) ⟨ECODES.EV_ABS, ECODES.ABS_RY, v⟩ =
      some ({ s with gyaw := pyInt ((v : ℚ) * (1 / 100)) }, true) ∧
    gyroStep (s, ch) ⟨ECODES.EV_ABS, ECODES.ABS_RZ, v⟩ =
      some ({ s with groll := pyInt ((v : ℚ) * (1 / 100)) }, true) ∧
    gyroInput s events = (s, []) := by
  refine ⟨rfl, rfl, rfl, ?_⟩
  have hb : gyroBatch s events = some (s, false) :=
    gyroBatch_inert events (s, false) h
  rw [gyroInput, hb]
  rfl

/-- Witness for C9: a concrete two-event batch on the placeholder codes
leaves the state identical and emits nothing. -/
theorem gyro_mapped_and_unmapped_witness :
    (∀ e ∈ [(⟨3, 0, 5⟩ : InputEvent), ⟨3, 2, 7⟩], e.type = ECODES.EV_ABS ∧
      (e.code = ECODES.ABS_X ∨ e.code = ECODES.ABS_Y ∨
        e.code = ECODES.ABS_Z)) ∧
    gyroInput ⟨0, 0, 0, 0, 0, 0⟩ [⟨3, 0, 5⟩, ⟨3, 2, 7⟩] =
      (⟨0, 0, 0, 0, 0, 0⟩, []) :=
  ⟨by decide,
    (gyro_mapped_and_unmapped ⟨0, 0, 0, 0, 0, 0⟩ false 0
      [⟨3, 0, 5⟩, ⟨3, 2, 7⟩] (by decide)).2.2.2⟩

/-- Counterexample to C9 as stated: the reserved/placeholder entries of
`GYRO_MAP` cover *three* axis codes, not two. -/
theorem gyro_unmapped_count_counter :
    gyroUnmappedCodes = [ECODES.ABS_X, ECODES.ABS_Y, ECODES.ABS_Z] ∧
    gyroUnmappedCodes.length = 3 ∧ gyroUnmappedCodes.length ≠ 2 := by
  refine ⟨by decide, by decide, by decide⟩

/-! ### C7: evdev device correlation -/

/-- A synthetic controller device: 8 axes. -/
def devCtrl : EvDevice := ⟨"usb-1/input0".toList, [0, 1, 2, 3, 4, 5, 16, 17]⟩

/-- A synthetic gyro device: 6 axes, no multi-touch position axis. -/
def devGyro : EvDevice := ⟨"usb-1/input1".toList, [0, 1, 2, 3, 4, 5]⟩

/-- A synthetic touchpad device: 4 axes including `ABS_MT_POSITION_X`. -/
def devTouch : EvDevice := ⟨"usb-1/input2".toList, [53, 54, 0, 1]⟩

/-- A synthetic unrelated device with a different physical-address
prefix. -/
def devExtra : EvDevice := ⟨"bt-9/x".toList, [0, 1]⟩

/-- C7 evaluated at the failing input: with controller, gyro and touchpad
sharing the prefix `usb-1` and an unrelated `bt-9`-prefixed device
enumerated *last*, the source returns no adapter — because it takes the
prefix from the leaked loop variable (the last device) instead of the
controller device — while the spec-modelled correlation (prefix from the
primary device) succeeds and ignores the unrelated device; moving the
unrelated device away from the last position makes the source succeed,
and omitting the touchpad role makes construction fail. -/
theorem make_evdev_device_prefix_bug :
    make_evdev_device [devCtrl, devGyro, devTouch, devExtra] = none ∧
    make_evdev_device_spec [devCtrl, devGyro, devTouch, devExtra] =
      some (devCtrl, devGyro, devTouch) ∧
    make_evdev_device [devExtra, devCtrl, devGyro, devTouch] =
      some (devCtrl, devGyro, devTouch) ∧
    make_evdev_device [devCtrl, devGyro] = none := by
  refine ⟨by decide, by decide, by decide, by decide⟩

/-! ### C5: `schedule_output` / `flush` behaviour -/

theorem dictFind?_nil (k : String) : dictFind? [] k = none := rfl

theorem dictFind?_cons (k₀ : String) (v₀ : DualSenseHIDOutput)
    (rest : List (String × DualSenseHIDOutput)) (k : String) :
    dictFind? ((k₀, v₀) :: rest) k =
      if k₀ = k then some v₀ else dictFind? rest k := by
  by_cases h : k₀ = k
  · rw [if_pos h, dictFind?, List.find?_cons_of_pos _ (by simpa using h)]
    rfl
  · rw [if_neg h, dictFind?, List.find?_cons_of_neg _ (by simpa using h)]
    rfl

theorem dictFind?_dictAssign (m : List (String × DualSenseHIDOutput))
    (k k' : String) (v : DualSenseHIDOutput) :
    dictFind? (dictAssign m k v) k' =
      if k' = k then some v else dictFind? m k' := by
  induction m with
  | nil =>
    rw [dictAssign, dictFind?_cons, dictFind?_nil]
    by_cases h : k' = k
    · rw [if_pos h, if_pos h.symm]
    · rw [if_neg h, if_neg (fun hx => h hx.symm)]
  | cons hd rest ih =>
    obtain ⟨k₀, v₀⟩ := hd
    rw [dictAssign]
    by_cases h₀ : k₀ = k
    · rw [if_pos h₀, dictFind?_cons, dictFind?_cons]
      subst h₀
      by_cases h' : k₀ = k'
      · rw [if_pos h', if_pos h'.symm]
      · rw [if_neg h', if_neg (fun hx => h' hx.symm), if_neg h']
    · rw [if_neg h₀, dictFind?_cons, ih, dictFind?_cons]
      by_cases h1 : k₀ = k'
      · subst h1
        rw [if_pos rfl, if_neg (fun hx => h₀ hx), if_pos rfl]
      · rw [if_neg h1, if_neg h1]

theorem keys_subset_dictAssign (m : List (String × DualSenseHIDOutput))
    (k : String) (v : DualSenseHIDOutput) :
    ∀ k' ∈ (dictAssign m k v).map Prod.fst,
      k' ∈ m.map Prod.fst ∨ k' = k := by
  induction m with
  | nil =>
    intro k' hk'
    rw [dictAssign] at hk'
    simp at hk'
    exact Or.inr hk'
  | cons hd rest ih =>
    obtain ⟨k₀, v₀⟩ := hd
    intro k' hk'
    rw [dictAssign] at hk'
    by_cases h₀ : k₀ = k
    · rw [if_pos h₀] at hk'
      simp only [List.map_cons, List.mem_cons] at hk' ⊢
      exact hk'.elim (fun h => Or.inl (Or.inl h)) (fun h => Or.inl (Or.inr h))
    · rw [if_neg h₀] at hk'
      simp only [List.map_cons, List.mem_cons] at hk' ⊢
      rcases hk' with h | h
      · exact Or.inl (Or.inl h)
      · rcases ih k' h with h' | h'
        · exact Or.inl (Or.inr h')
        · exact Or.inr h'

theorem keys_nodup_dictAssign (m : List (String × DualSenseHIDOutput))
    (k : String) (v : DualSenseHIDOutput)
    (h : (m.map Prod.fst).Nodup) : ((dictAssign m k v).map Prod.fst).Nodup := by
  induction m with
  | nil =>
    rw [dictAssign]
    simp
  | cons hd rest ih =>
    obtain ⟨k₀, v₀⟩ := hd
    rw [List.map_cons, List.nodup_cons] at h
    rw [dictAssign]
    by_cases h₀ : k₀ = k
    · rw [if_pos h₀, List.map_cons, List.nodup_cons]
      exact ⟨h.1, h.2⟩
    · rw [if_neg h₀, List.map_cons, List.nodup_cons]
      refine ⟨?_, ih h.2⟩
      intro hk₀
      rcases keys_subset_dictAssign rest k v k₀ hk₀ with hmem | heq
      · exact h.1 hmem
      · exact h₀ heq

theorem keys_nodup_scheduleAll (calls : List (String × DualSenseHIDOutput)) :
    ((scheduleAll calls).map Prod.fst).Nodup := by
  rw [scheduleAll]
  have hstep : ∀ (cs : List (String × DualSenseHIDOutput))
      (m : List (String × DualSenseHIDOutput)),
      (m.map Prod.fst).Nodup →
      ((cs.foldl (fun acc p => dictAssign acc p.1 p.2) m).map Prod.fst).Nodup := by
    intro cs
    induction cs with
    | nil => exact fun m hm => hm
    | cons c rest ih =>
      intro m hm
      exact ih _ (keys_nodup_dictAssign m c.1 c.2 hm)
  exact hstep calls [] (by simp)

theorem getLast?_cons_or (a : (String × DualSenseHIDOutput))
    (l : List (String × DualSenseHIDOutput)) :
    (a :: l).getLast? = l.getLast?.or (some a) := by
  induction l generalizing a with
  | nil => rfl
  | cons b l ih =>
    rw [List.getLast?_cons_cons, ih b]
    cases l.getLast? <;> rfl

theorem lastScheduled_cons (k₁ : String) (v₁ : DualSenseHIDOutput)
    (rest : List (String × DualSenseHIDOutput)) (k : String) :
    lastScheduled ((k₁, v₁) :: rest) k =
      if k₁ = k then (lastScheduled rest k).or (some v₁)
      else lastScheduled rest k := by
  rw [lastScheduled, List.filter_cons]
  by_cases h : k₁ = k
  · rw [if_pos (by simpa using h), if_pos h, getLast?_cons_or, lastScheduled]
    cases (rest.filter fun p => p.1 = k).getLast? <;> rfl
  · rw [if_neg (by simpa using h), if_neg h, lastScheduled]

theorem dictFind?_foldAssign (calls : List (String × DualSenseHIDOutput))
    (m : List (String × DualSenseHIDOutput)) (k : String) :
    dictFind? (calls.foldl (fun acc p => dictAssign acc p.1 p.2) m) k =
      (lastScheduled calls k).or (dictFind? m k) := by
  induction calls generalizing m with
  | nil => rfl
  | cons c rest ih =>
    obtain ⟨k₁, v₁⟩ := c
    rw [List.foldl_cons, ih, lastScheduled_cons, dictFind?_dictAssign]
    by_cases h : k₁ = k
    · rw [if_pos h, if_pos h.symm]
      cases lastScheduled rest k <;> rfl
    · rw [if_neg h, if_neg (fun hx => h hx.symm)]

/-- Last-write-wins: the pending-outputs map after a call sequence holds,
per key, exactly the last value scheduled for that key. -/
theorem dictFind?_scheduleAll (calls : List (String × DualSenseHIDOutput))
    (k : String) :
    dictFind? (scheduleAll calls) k = lastScheduled calls k := by
  rw [scheduleAll, dictFind?_foldAssign]
  cases lastScheduled calls k <;> rfl

theorem toBytes_length (o : DualSenseHIDOutput) : o.toBytes.length = 48 := by
  simp [DualSenseHIDOutput.toBytes]

theorem ljust_length {l : List ℕ} (h : l.length ≤ 64) :
    (ljust 64 l).length = 64 := by
  rw [ljust, List.length_append, List.length_replicate]
  omega

theorem countP_eq_one_of_nodup_find
    (m : List (String × DualSenseHIDOutput)) (k : String)
    (v : DualSenseHIDOutput) (hnd : (m.map Prod.fst).Nodup)
    (hf : dictFind? m k = some v) :
    m.countP (fun p => p.1 = k) = 1 := by
  induction m with
  | nil => cases hf
  | cons hd rest ih =>
    obtain ⟨k₀, v₀⟩ := hd
    rw [List.map_cons, List.nodup_cons] at hnd
    rw [dictFind?_cons] at hf
    rw [List.countP_cons]
    by_cases h : k₀ = k
    · subst h
      have hz : rest.countP (fun p => p.1 = k₀) = 0 := by
        rw [List.countP_eq_zero]
        intro p hp hpk
        simp only [decide_eq_true_eq] at hpk
        exact hnd.1 (List.mem_map.mpr ⟨p, hp, hpk⟩)
      simp [hz]
    · rw [if_neg h] at hf
      have := ih hnd.2 hf
      simp only [this, decide_eq_true_eq]
      simp [h]

/-- C5: for every sequence of `schedule_output` calls followed by one
`flush`: the map holds the last value scheduled per channel
(last-write-wins); every channel present in the pending-outputs map is
written exactly once, as its value zero-padded to exactly 64 bytes; and
after `flush` the pending-outputs map is empty. -/
theorem schedule_flush_behaviour (calls : List (String × DualSenseHIDOutput))
    (k : String) (v : DualSenseHIDOutput) :
    (dictFind? (scheduleAll calls) k = lastScheduled calls k) ∧
    (dictFind? (scheduleAll calls) k = some v →
      (flushOutputs (scheduleAll calls)).1.countP (fun p => p.1 = k) = 1 ∧
      (k, ljust 64 v.toBytes) ∈ (flushOutputs (scheduleAll calls)).1) ∧
    (∀ w ∈ (flushOutputs (scheduleAll calls)).1, w.2.length = 64) ∧
    (flushOutputs (scheduleAll calls)).2 = [] := by
  refine ⟨dictFind?_scheduleAll calls k, fun hf => ⟨?_, ?_⟩, ?_, rfl⟩
  · rw [flushOutputs]
    rw [List.countP_map]
    have hrev : ((scheduleAll calls).reverse.countP
        ((fun p => decide (p.1 = k)) ∘ fun p => (p.1, ljust 64 p.2.toBytes)))
        = (scheduleAll calls).reverse.countP (fun p => p.1 = k) := by
      apply List.countP_congr
      intro p _hp
      rfl
    rw [hrev, ((scheduleAll calls).reverse_perm).countP_eq]
    exact countP_eq_one_of_nodup_find _ k v (keys_nodup_scheduleAll calls) hf
  · rw [dictFind?] at hf
    rcases hfind : (scheduleAll calls).find? (fun p => p.1 = k) with _ | pr
    · rw [hfind] at hf
      cases hf
    · rw [hfind] at hf
      have hpk : pr.1 = k := by
        have := List.find?_some hfind
        simpa using this
      have hpv : pr.2 = v := by
        simpa using hf
      have hmem : pr ∈ scheduleAll calls := List.mem_of_find?_eq_some hfind
      rw [flushOutputs]
      refine List.mem_map.mpr ⟨pr, List.mem_reverse.mpr hmem, ?_⟩
      rw [hpk, hpv]
  · intro w hw
    rw [flushOutputs] at hw
    obtain ⟨p, _hp, rfl⟩ := List.mem_map.mp hw
    exact ljust_length (by rw [toBytes_length]; omega)

/-- Witness for C5: three schedule calls, two on the same channel; the
flush writes the channel exactly once, padded to 64 bytes, with the last
scheduled value. -/
theorem schedule_flush_behaviour_witness :
    (dictFind? (scheduleAll
        [("feedback", { motor_left := 1 }), ("lightbar", { lightbar_red := 9 }),
          ("feedback", { motor_left := 2 })]) "feedback" =
      some { motor_left := 2 }) ∧
    ((flushOutputs (scheduleAll
        [("feedback", { motor_left := 1 }), ("lightbar", { lightbar_red := 9 }),
          ("feedback", { motor_left := 2 })])).1.countP
            (fun p => p.1 = "feedback") = 1 ∧
      ("feedback",
        ljust 64 (DualSenseHIDOutput.toBytes { motor_left := 2 })) ∈
        (flushOutputs (scheduleAll
          [("feedback", { motor_left := 1 }),
            ("lightbar", { lightbar_red := 9 }),
            ("feedback", { motor_left := 2 })])).1) :=
  ⟨rfl,
    (schedule_flush_behaviour
      [("feedback", { motor_left := 1 }), ("lightbar", { lightbar_red := 9 }),
        ("feedback", { motor_left := 2 })] "feedback"
      { motor_left := 2 }).2.1 rfl⟩

/-! ### C6: `configure` colour selection -/

/-- The three lightbar colour bytes of an output structure. -/
def lightbarBytes (o : DualSenseHIDOutput) : ℕ × ℕ × ℕ :=
  (o.lightbar_red, o.lightbar_green, o.lightbar_blue)

theorem rsplitLast_eq_none_iff (sep : Char) (l : List Char) :
    rsplitLast sep l = none ↔ sep ∉ l := by
  induction l with
  | nil => simp [rsplitLast]
  | cons c rest ih =>
    rw [rsplitLast]
    split
    · rename_i a b heq
      constructor
      · intro hx
        cases hx
      · intro hx
        have hmem : sep ∈ rest := by
          by_contra hy
          rw [← ih] at hy
          rw [heq] at hy
          cases hy
        exact absurd (List.mem_cons_of_mem c hmem) hx
    · rename_i heq
      have hrest : sep ∉ rest := ih.mp heq
      by_cases hc : c = sep
      · rw [if_pos hc]
        constructor
        · intro hx
          cases hx
        · intro hx
          exact absurd (by rw [hc]; exact List.mem_cons_self sep rest) hx
      · rw [if_neg hc]
        constructor
        · intro _ hx
          rcases List.mem_cons.mp hx with h1 | h1
          · exact hc h1.symm
          · exact hrest h1
        · intro _
          rfl

theorem rsplitLast_not_mem_snd (sep : Char) (l : List Char)
    (a b : List Char) (h : rsplitLast sep l = some (a, b)) : sep ∉ b := by
  induction l generalizing a b with
  | nil => cases h
  | cons c rest ih =>
    rw [rsplitLast] at h
    split at h
    · rename_i a1 b1 heq
      injection h with h1
      have hb : b1 = b := congrArg Prod.snd h1
      rw [← hb]
      exact ih a1 b1 heq
    · rename_i heq
      by_cases hc : c = sep
      · rw [if_pos hc] at h
        injection h with h1
        have hb : rest = b := congrArg Prod.snd h1
        rw [← hb]
        exact (rsplitLast_eq_none_iff sep rest).mp heq
      · rw [if_neg hc] at h
        cases h

theorem lastPiece_not_mem (sep : Char) (l : List Char) :
    sep ∉ lastPiece sep l := by
  rw [lastPiece]
  rcases h : rsplitLast sep l with _ | pr
  · exact (rsplitLast_eq_none_iff sep l).mp h
  · obtain ⟨a, b⟩ := pr
    exact rsplitLast_not_mem_snd sep l a b h

theorem mem_of_mem_strip (x : Char) (l : List Char)
    (h : x ∈ ((l.dropWhile (· = ' ')).reverse.dropWhile (· = ' ')).reverse) :
    x ∈ l := by
  rw [List.mem_reverse] at h
  have h1 : x ∈ (l.dropWhile (· = ' ')).reverse :=
    (List.dropWhile_sublist _).subset h
  rw [List.mem_reverse] at h1
  exact (List.dropWhile_sublist _).subset h1

theorem pyParseInt_nonneg (l : List Char) (i : ℤ)
    (hnd : ('-' : Char) ∉ l) (hp : pyParseInt l = some i) : 0 ≤ i := by
  rw [pyParseInt] at hp
  split at hp
  · cases hp
  · rename_i c ds heq
    by_cases hplus : c = '+'
    · rw [if_pos hplus] at hp
      by_cases hds : ds ≠ [] ∧ ds.all Char.isDigit = true
      · rw [if_pos hds] at hp
        injection hp with h1
        rw [← h1]
        exact Int.natCast_nonneg _
      · rw [if_neg hds] at hp
        cases hp
    · rw [if_neg hplus] at hp
      by_cases hminus : c = '-'
      · exfalso
        apply hnd
        apply mem_of_mem_strip '-' l
        rw [heq, ← hminus]
        exact List.mem_cons_self c ds
      · rw [if_neg hminus] at hp
        by_cases hds : (c :: ds).all Char.isDigit = true
        · rw [if_pos hds] at hp
          injection hp with h1
          rw [← h1]
          exact Int.natCast_nonneg _
        · rw [if_neg hds] at hp
          cases hp

/-- C6 (amended): `configure` falls back to the default blue colour when
the icon reference is absent, and — provided the reference contains a
`'.'` — also when the suffix is non-numeric or the parsed index is out of
range of the palette, with no exception; `configure("controller-3.svg", 50)`
yields palette entry 3 (yellow) scaled by 0.5, i.e. bytes `(127, 127, 0)`,
and `configure(None, 100)` yields the default blue unscaled,
`(0, 0, 255)`.  (A nonempty reference *without* a `'.'` instead raises an
uncaught `ValueError`.) -/
theorem configure_palette_and_fallback :
    (∀ s : List Char, '.' ∈ s → configureColor (some s) ≠ none) ∧
    configureColor none = some (0, 0, 1) ∧
    (configureOp (some ("controller-3.svg".toList)) 50).map lightbarBytes =
      some (127, 127, 0) ∧
    (configureOp none 100).map lightbarBytes = some (0, 0, 255) ∧
    (configureOp (some ("controller-9.svg".toList)) 100).map lightbarBytes =
      some (0, 0, 255) ∧
    (configureOp (some ("controller.svg".toList)) 100).map lightbarBytes =
      some (0, 0, 255) := by
  refine ⟨?_, rfl, ?_, ?_, ?_, ?_⟩
  · intro s hdot
    rw [configureColor]
    by_cases hnil : s = []
    · rw [if_pos hnil]
      intro hx
      cases hx
    · rw [if_neg hnil]
      split
      · rename_i heq
        exact absurd hdot ((rsplitLast_eq_none_iff _ s).mp heq)
      · rename_i basename ext heq
        split
        · intro hx
          cases hx
        · rename_i icon_idx heq2
          by_cases hlt : icon_idx < (ICON_COLORS.length : ℤ)
          · rw [if_pos hlt]
            have hnonneg : 0 ≤ icon_idx :=
              pyParseInt_nonneg _ _ (lastPiece_not_mem '-' basename) heq2
            rw [pyPaletteGet, if_pos hnonneg]
            have hlen : icon_idx.toNat < ICON_COLORS.length := by
              have h7 : ICON_COLORS.length = 7 := rfl
              rw [h7] at hlt ⊢
              omega
            intro hx
            have := List.get?_eq_none.mp hx
            omega
          · rw [if_neg hlt]
            intro hx
            cases hx
  · have hc3 : configureColor (some ("controller-3.svg".toList)) =
        some (1, 1, 0) := rfl
    rw [configureOp, hc3]
    norm_num [lightbarBytes, ubyte, pyInt, Prod.ext_iff]
    rfl
  · rw [configureOp]
    norm_num [configureColor, lightbarBytes, ubyte, pyInt, Prod.ext_iff]
    rfl
  · have hc9 : configureColor (some ("controller-9.svg".toList)) =
        some (0, 0, 1) := rfl
    rw [configureOp, hc9]
    norm_num [lightbarBytes, ubyte, pyInt, Prod.ext_iff]
    rfl
  · have hcx : configureColor (some ("controller.svg".toList)) =
        some (0, 0, 1) := rfl
    rw [configureOp, hcx]
    norm_num [lightbarBytes, ubyte, pyInt, Prod.ext_iff]
    rfl

/-- Witness for C6 at a concrete dotted reference. -/
theorem configure_palette_and_fallback_witness :
    (('.' : Char) ∈ "a.b".toList) ∧
    configureColor (some ("a.b".toList)) ≠ none :=
  ⟨by decide, configure_palette_and_fallback.1 ("a.b".toList) (by decide)⟩

/-- Counterexample to C6 as stated: a nonempty icon reference without a
`'.'` raises an uncaught `ValueError` (modelled as `none`) instead of
falling back to the default colour the way an absent reference does. -/
theorem configure_dotless_exception_counter :
    configureOp (some ("controller3".toList)) 100 = none ∧
    configureOp none 100 ≠ none := by
  refine ⟨rfl, ?_⟩
  intro h
  exact Option.noConfusion h

end DS5
